import Mathlib

/-
Verification development for the watermarking engine
(`src/src-tauri/src/watermark.rs` of RapidRAW).

Strings are modelled as `List Char`.  Rust `f32`/`f64` values are modelled
as exact rationals (`ℚ`); the saturating float-to-integer `as` casts are
modelled explicitly.  External collaborators (glyph rasterizer, image
resampling, file loading) are out of scope per the spec and are modelled
as abstract parameters in a `RenderEnv` record.
-/

namespace RapidRAW

/-! ## Association-list lookup (model of `serde_json` object `get` and of
`HashMap::get` for the font registry) -/

def lookupA {α : Type} : List (List Char × α) → List Char → Option α
  | [], _ => none
  | (k, v) :: rest, key => if k = key then some v else lookupA rest key

/-- Removes every binding of `key`; used to compare a wrong-typed entry with an
absent one. -/
def eraseA {α : Type} : List (List Char × α) → List Char → List (List Char × α)
  | [], _ => []
  | (k, v) :: rest, key => if k = key then eraseA rest key else (k, v) :: eraseA rest key

/-! ## Model of Rust `str::replace`

`str::replace(pat, rep)` scans left to right; at each position, if `pat` is a
prefix of the remaining input the replacement is emitted and the match is
skipped, otherwise one character is copied.  The patterns used by the source
are all non-empty literals.  The recursion is driven by a fuel argument equal
to the input length so that the definition is structural (and hence reducible
by `decide`). -/

def replaceFuel (pat rep : List Char) : Nat → List Char → List Char
  | _, [] => []
  | 0, s => s
  | fuel + 1, c :: rest =>
    if pat ≠ [] ∧ pat.isPrefixOf (c :: rest) then
      rep ++ replaceFuel pat rep fuel (rest.drop (pat.length - 1))
    else
      c :: replaceFuel pat rep fuel rest

def replaceL (pat rep s : List Char) : List Char :=
  replaceFuel pat rep s.length s

/-- Detects a position at which two lists differ within their common length;
if so, the first can never be a prefix of the second followed by anything. -/
def divergeB : List Char → List Char → Bool
  | [], _ => false
  | _, [] => false
  | a :: t, b :: u => if a = b then divergeB t u else true

/-! ## Model of `serde_json::Value` and of `ImageMetadata` -/

/-- Shallow embedding of `serde_json::Value`.  Numbers distinguish the integer
and floating representations, mirroring `serde_json::Number`; floats are
modelled as exact rationals. -/
inductive Json where
  | str (s : List Char)
  | int (n : Int)
  | float (q : Rat)
  | jbool (b : Bool)
  | null
  | obj (fields : List (List Char × Json))
  | arr (elems : List Json)

/-- Model of `Value::get` on a key: defined on objects, `none` elsewhere. -/
def jget (j : Json) (key : List Char) : Option Json :=
  match j with
  | .obj fields => lookupA fields key
  | _ => none

/-- Model of `Value::as_str`. -/
def as_str : Json → Option (List Char)
  | .str s => some s
  | _ => none

/-- Model of `Value::as_f64`: any JSON number converts. -/
def as_f64 : Json → Option Rat
  | .int n => some (n : Rat)
  | .float q => some q
  | _ => none

/-- Model of `Value::as_i64`: only integer-represented numbers convert;
a float such as `400.0` yields `none`. -/
def as_i64 : Json → Option Int
  | .int n => some n
  | _ => none

/-- Modelled from the spec: `ImageMetadata` lives in the (absent)
`image_processing` module; spec section 6 describes it as a record whose
`adjustments` mapping holds, under key `exif`, a mapping of EXIF tag names to
JSON scalars. -/
structure ImageMetadata where
  adjustments : List (List Char × Json)

/-! ## Numeric formatting helpers

Rust's float formatting with a fixed precision (`{:.1}`, `{:.0}`) rounds the
exact value to the nearest decimal, ties to even; `f64::round` rounds half
away from zero; float-to-integer `as` casts saturate and truncate toward
zero. -/

/-- Round to nearest, ties to even (the decimal rounding used by Rust's fixed
precision float formatting). -/
def hre (q : Rat) : Int :=
  if q - ⌊q⌋ < 1 / 2 then ⌊q⌋
  else if (1 : Rat) / 2 < q - ⌊q⌋ then ⌊q⌋ + 1
  else if 2 ∣ ⌊q⌋ then ⌊q⌋ else ⌊q⌋ + 1

/-- Model of `f64::round`: round half away from zero. -/
def rround (q : Rat) : Int :=
  if q < 0 then -⌊-q + 1 / 2⌋ else ⌊q + 1 / 2⌋

/-- Model of the saturating `as i32` cast applied to an integral value. -/
def castI32 (n : Int) : Int :=
  max (-2147483648) (min 2147483647 n)

/-- Model of the saturating, truncating `as u8` cast from a float. -/
def u8cast (q : Rat) : Nat :=
  if q < 0 then 0 else min 255 ⌊q⌋.toNat

/-- Model of the saturating, truncating `as u32` cast from a float. -/
def u32cast (q : Rat) : Nat :=
  if q < 0 then 0 else min 4294967295 ⌊q⌋.toNat

def digitChar (n : Nat) : Char :=
  if n = 0 then '0' else if n = 1 then '1' else if n = 2 then '2'
  else if n = 3 then '3' else if n = 4 then '4' else if n = 5 then '5'
  else if n = 6 then '6' else if n = 7 then '7' else if n = 8 then '8' else '9'

def natCharsAux : Nat → Nat → List Char
  | 0, _ => []
  | fuel + 1, n => if n < 10 then [digitChar n] else natCharsAux fuel (n / 10) ++ [digitChar (n % 10)]

/-- Base-10 rendering of a natural number. -/
def natChars (n : Nat) : List Char := natCharsAux (n + 1) n

/-- Base-10 rendering of an integer (model of `i64`/`i32` `to_string` and of
the `{}` format of an integer). -/
def intChars (i : Int) : List Char :=
  if i < 0 then '-' :: natChars i.natAbs else natChars i.natAbs

/-- Model of `format!("{:.1}", x)`. -/
def fmt1 (q : Rat) : List Char :=
  let m := hre (q * 10)
  (if m < 0 then ['-'] else []) ++ natChars (m.natAbs / 10) ++ '.' :: natChars (m.natAbs % 10)

/-- Model of `format!("{:.0}", x)`. -/
def fmt0 (q : Rat) : List Char :=
  let m := hre q
  (if m < 0 then ['-'] else []) ++ natChars m.natAbs

/-- Model of the shutter speed formatting on `replace_metadata_placeholders`
lines 121-125: one fractional digit when at least one second, else
`1/N` with `N = (1.0 / t).round() as i32`. -/
def shutterChars (t : Rat) : List Char :=
  if 1 ≤ t then fmt1 t else '1' :: '/' :: intChars (castI32 (rround (1 / t)))

/-! ## The placeholder resolver, `replace_metadata_placeholders`
(watermark.rs lines 95-159) -/

/-- Model of the pattern `if let Some(v) = o { result = result.replace(tok, v) }`:
replace when the optional source value is present, otherwise keep the string. -/
def applyOpt (o : Option (List Char)) (token s : List Char) : List Char :=
  match o with
  | some v => replaceL token v s
  | none => s

/-- Faithful embedding of `replace_metadata_placeholders`.  Each exif step is
an `applyOpt` of the accessor chain used by the source; the shutter-speed
branch on the value (source lines 121-125) is folded into `shutterChars`.
The nine trailing replacements remove leftover recognized placeholders
(source lines 148-156). -/
def replace_metadata_placeholders (text : List Char) (metadata : ImageMetadata)
    (filename : List Char) : List Char :=
  let result := text
  let result :=
    match lookupA metadata.adjustments "exif".data with
    | some exif =>
      let result := applyOpt ((jget exif "Make".data).bind as_str) "{camera_make}".data result
      let result := applyOpt ((jget exif "Model".data).bind as_str) "{camera_model}".data result
      let result := applyOpt ((jget exif "LensModel".data).bind as_str) "{lens_model}".data result
      let result := applyOpt (((jget exif "FNumber".data).bind as_f64).map fmt1)
        "{aperture}".data result
      let result := applyOpt (((jget exif "ExposureTime".data).bind as_f64).map shutterChars)
        "{shutter_speed}".data result
      let result := applyOpt (((jget exif "PhotographicSensitivity".data).bind as_i64).map intChars)
        "{iso}".data result
      let result := applyOpt (((jget exif "FocalLength".data).bind as_f64).map fmt0)
        "{focal_length}".data result
      let result := applyOpt ((jget exif "DateTime".data).bind as_str) "{date_time}".data result
      let result := applyOpt ((jget exif "Artist".data).bind as_str) "{photographer}".data result
      result
    | none => result
  let result := replaceL "{filename}".data filename result
  let result := replaceL "{camera_make}".data [] result
  let result := replaceL "{camera_model}".data [] result
  let result := replaceL "{lens_model}".data [] result
  let result := replaceL "{aperture}".data [] result
  let result := replaceL "{shutter_speed}".data [] result
  let result := replaceL "{iso}".data [] result
  let result := replaceL "{focal_length}".data [] result
  let result := replaceL "{date_time}".data [] result
  let result := replaceL "{photographer}".data [] result
  result

/-! Source values as read by the resolver, one accessor per recognized
exif-backed placeholder. -/

def vMake (md : ImageMetadata) : Option (List Char) :=
  (lookupA md.adjustments "exif".data).bind fun exif => (jget exif "Make".data).bind as_str

def vModel (md : ImageMetadata) : Option (List Char) :=
  (lookupA md.adjustments "exif".data).bind fun exif => (jget exif "Model".data).bind as_str

def vLens (md : ImageMetadata) : Option (List Char) :=
  (lookupA md.adjustments "exif".data).bind fun exif => (jget exif "LensModel".data).bind as_str

def vAperture (md : ImageMetadata) : Option (List Char) :=
  (lookupA md.adjustments "exif".data).bind fun exif =>
    ((jget exif "FNumber".data).bind as_f64).map fmt1

def vShutter (md : ImageMetadata) : Option (List Char) :=
  (lookupA md.adjustments "exif".data).bind fun exif =>
    ((jget exif "ExposureTime".data).bind as_f64).map shutterChars

def vIso (md : ImageMetadata) : Option (List Char) :=
  (lookupA md.adjustments "exif".data).bind fun exif =>
    ((jget exif "PhotographicSensitivity".data).bind as_i64).map intChars

def vFocal (md : ImageMetadata) : Option (List Char) :=
  (lookupA md.adjustments "exif".data).bind fun exif =>
    ((jget exif "FocalLength".data).bind as_f64).map fmt0

def vDateTime (md : ImageMetadata) : Option (List Char) :=
  (lookupA md.adjustments "exif".data).bind fun exif => (jget exif "DateTime".data).bind as_str

def vArtist (md : ImageMetadata) : Option (List Char) :=
  (lookupA md.adjustments "exif".data).bind fun exif => (jget exif "Artist".data).bind as_str

/-- The closed set of recognized placeholders. -/
inductive PTok where
  | cameraMake | cameraModel | lensModel | aperture | shutterSpeed
  | iso | focalLength | dateTime | photographer | filenameTok
deriving DecidableEq, Fintype

def tokStr : PTok → List Char
  | .cameraMake => "{camera_make}".data
  | .cameraModel => "{camera_model}".data
  | .lensModel => "{lens_model}".data
  | .aperture => "{aperture}".data
  | .shutterSpeed => "{shutter_speed}".data
  | .iso => "{iso}".data
  | .focalLength => "{focal_length}".data
  | .dateTime => "{date_time}".data
  | .photographer => "{photographer}".data
  | .filenameTok => "{filename}".data

/-- The value each placeholder ends up substituted with: the formatted source
value when present, the empty string otherwise, the filename argument for
`{filename}`. -/
def tokenValue (p : PTok) (md : ImageMetadata) (fname : List Char) : List Char :=
  match p with
  | .cameraMake => (vMake md).getD []
  | .cameraModel => (vModel md).getD []
  | .lensModel => (vLens md).getD []
  | .aperture => (vAperture md).getD []
  | .shutterSpeed => (vShutter md).getD []
  | .iso => (vIso md).getD []
  | .focalLength => (vFocal md).getD []
  | .dateTime => (vDateTime md).getD []
  | .photographer => (vArtist md).getD []
  | .filenameTok => fname

/-- The exact sequence of replacement passes performed by the resolver, in
source order: nine conditional exif substitutions, the unconditional filename
substitution, then the nine unconditional removals of leftover tokens. -/
def stepList (md : ImageMetadata) (fname : List Char) : List (PTok × Option (List Char)) :=
  [(.cameraMake, vMake md), (.cameraModel, vModel md), (.lensModel, vLens md),
   (.aperture, vAperture md), (.shutterSpeed, vShutter md), (.iso, vIso md),
   (.focalLength, vFocal md), (.dateTime, vDateTime md), (.photographer, vArtist md),
   (.filenameTok, some fname),
   (.cameraMake, some []), (.cameraModel, some []), (.lensModel, some []),
   (.aperture, some []), (.shutterSpeed, some []), (.iso, some []),
   (.focalLength, some []), (.dateTime, some []), (.photographer, some [])]

def runSteps (steps : List (PTok × Option (List Char))) (s : List Char) : List Char :=
  steps.foldl (fun r pr => applyOpt pr.2 (tokStr pr.1) r) s

/-! ## Structured templates

A template is viewed as a concatenation of literal chunks and recognized
tokens.  Over such templates (with brace-free literal chunks and brace-free
source values) the sequential replacement passes of the resolver coincide
with a simultaneous, per-segment substitution. -/

def openFree (l : List Char) : Prop := ∀ c ∈ l, c ≠ '\x7b'

instance decOpenFree (l : List Char) : Decidable (openFree l) :=
  inferInstanceAs (Decidable (∀ c ∈ l, c ≠ '\x7b'))

inductive Seg where
  | lit (l : List Char)
  | tok (p : PTok)
deriving DecidableEq

def renderT : List Seg → List Char
  | [] => []
  | .lit l :: rest => l ++ renderT rest
  | .tok p :: rest => tokStr p ++ renderT rest

def segOpenFree : Seg → Prop
  | .lit l => openFree l
  | .tok _ => True

instance decSegOpenFree : DecidablePred segOpenFree
  | .lit l => inferInstanceAs (Decidable (openFree l))
  | .tok _ => .isTrue trivial

/-- Effect of one replacement pass on one segment. -/
def stepSeg (o : Option (List Char)) (p : PTok) : Seg → Seg
  | .lit l => .lit l
  | .tok q =>
    match o with
    | some v => if q = p then .lit v else .tok q
    | none => .tok q

/-- Composite effect of a sequence of replacement passes on one segment. -/
def segMapOf (steps : List (PTok × Option (List Char))) (sg : Seg) : Seg :=
  steps.foldl (fun s pr => stepSeg pr.2 pr.1 s) sg

/-- Simultaneous (order-free) substitution: each token segment is replaced by
its value, independently of every other segment. -/
def parSeg (md : ImageMetadata) (fname : List Char) : Seg → Seg
  | .lit l => .lit l
  | .tok p => .lit (tokenValue p md fname)

/-! ## Settings data model (watermark.rs lines 8-62) -/

/-- An RGBA byte quadruple (model of `[u8; 4]` in RGBA order and of
`image::Rgba<u8>`). -/
structure Rgba where
  r : Nat
  g : Nat
  b : Nat
  a : Nat
deriving DecidableEq

inductive WatermarkType where
  | Text
  | Image
deriving DecidableEq

inductive HorizontalAlignment where
  | Left
  | Center
  | Right
deriving DecidableEq

inductive VerticalAlignment where
  | Top
  | Center
  | Bottom
deriving DecidableEq

structure WatermarkPosition where
  horizontal : HorizontalAlignment
  vertical : VerticalAlignment
  margin_x : Int
  margin_y : Int
deriving DecidableEq

structure TextWatermarkSettings where
  text : List Char
  font_size : Rat
  color : Rgba
  font_family : List Char
  bold : Bool
  italic : Bool
  shadow : Bool
  shadow_color : Rgba
  shadow_offset_x : Int
  shadow_offset_y : Int
deriving DecidableEq

structure WatermarkSettings where
  enabled : Bool
  watermark_type : WatermarkType
  position : WatermarkPosition
  scale : Rat
  opacity : Rat
  text_settings : Option TextWatermarkSettings
  image_path : Option (List Char)
deriving DecidableEq

/-! ## Layout (watermark.rs lines 382-426) -/

/-- Two's-complement wrap of an integer into the `i32` range: release-mode
Rust `i32` addition and subtraction wrap on overflow, and each subtraction
of the layout functions is modelled through this wrap. -/
def wrap32 (n : Int) : Int :=
  (n + 2147483648) % 4294967296 - 2147483648

/-- Membership in the representable `i32` range. -/
def inI32 (n : Int) : Prop :=
  -2147483648 ≤ n ∧ n < 2147483648

instance decInI32 (n : Int) : Decidable (inI32 n) :=
  inferInstanceAs (Decidable (-2147483648 ≤ n ∧ n < 2147483648))

/-- Faithful embedding of `calculate_text_position` (lines 382-403).  `i32`
values are modelled on `ℤ`; every subtraction wraps through `wrap32`
(release-mode `i32` overflow semantics) and Rust `/` on `i32` truncates
toward zero, which is `Int.tdiv` (its operand is already in range, so the
division itself cannot overflow for a divisor of 2). -/
def calculate_text_position (img_width img_height text_width text_height : Int)
    (position : WatermarkPosition) : Int × Int :=
  let x := match position.horizontal with
    | .Left => position.margin_x
    | .Center => Int.tdiv (wrap32 (img_width - text_width)) 2
    | .Right => wrap32 (wrap32 (img_width - text_width) - position.margin_x)
  let y := match position.vertical with
    | .Top => position.margin_y
    | .Center => Int.tdiv (wrap32 (img_height - text_height)) 2
    | .Bottom => wrap32 (wrap32 (img_height - text_height) - position.margin_y)
  (max x 0, max y 0)

/-- Faithful embedding of `calculate_image_position` (lines 405-426), with
the same wrapping `i32` arithmetic as `calculate_text_position`. -/
def calculate_image_position (img_width img_height watermark_width watermark_height : Int)
    (position : WatermarkPosition) : Int × Int :=
  let x := match position.horizontal with
    | .Left => position.margin_x
    | .Center => Int.tdiv (wrap32 (img_width - watermark_width)) 2
    | .Right => wrap32 (wrap32 (img_width - watermark_width) - position.margin_x)
  let y := match position.vertical with
    | .Top => position.margin_y
    | .Center => Int.tdiv (wrap32 (img_height - watermark_height)) 2
    | .Bottom => wrap32 (wrap32 (img_height - watermark_height) - position.margin_y)
  (max x 0, max y 0)

/-! ## Raster, fonts and external collaborators -/

/-- Modelled from the spec: the raster is a mutable RGBA8 buffer of known
width and height (spec section 3); `DynamicImage` is modelled by it. -/
structure Img where
  width : Nat
  height : Nat
  data : List Rgba
deriving DecidableEq

/-- Modelled from the spec: a loaded glyph set (`ab_glyph::FontVec`), opaque
to the engine. -/
structure Font where
  id : Nat
deriving DecidableEq

/-- Modelled from the spec: the external collaborators of the compositor
(glyph measurement `text_size` and glyph drawing `draw_text_mut` from
`imageproc`, file loading `image::open`, Lanczos3 resampling `resize` and
alpha-over `overlay` from `image`).  All are out of scope per spec section 1
and enter the model as opaque parameters. -/
structure RenderEnv where
  text_size : Rat → Font → List Char → Nat × Nat
  draw_text_mut : Img → Rgba → Int → Int → Rat → Font → List Char → Img
  image_open : List Char → Option Img
  resize : Img → Nat → Nat → Img
  overlay : Img → Img → Int → Int → Img

/-- The Unicode `White_Space` code points (the set trimmed by Rust's
`str::trim`). -/
def rustWhitespace : List Char :=
  ['\t', '\n', '\u000B', '\u000C', '\r', ' ', '\u0085', '\u00A0', '\u1680',
   '\u2000', '\u2001', '\u2002', '\u2003', '\u2004', '\u2005', '\u2006', '\u2007',
   '\u2008', '\u2009', '\u200A', '\u2028', '\u2029', '\u202F', '\u205F', '\u3000']

def isRustWhitespace (c : Char) : Bool := rustWhitespace.contains c

/-- Model of `str::trim`. -/
def rustTrim (s : List Char) : List Char :=
  ((s.dropWhile isRustWhitespace).reverse.dropWhile isRustWhitespace).reverse

/-! ## The compositor (watermark.rs lines 246-380) -/

/-- The straight-line drawing part of `apply_text_watermark` after font
resolution (source lines 303-346): effective pixel scale, effective colors
(alpha modulated by opacity through the saturating truncating `f32`-to-`u8`
cast), text measurement, layout, optional shadow pass, then the main pass. -/
def draw_text_passes (env : RenderEnv) (image : Img) (settings : WatermarkSettings)
    (text_settings : TextWatermarkSettings) (text : List Char) (font : Font) : Img :=
  let scale := text_settings.font_size * settings.scale
  let color : Rgba := ⟨text_settings.color.r, text_settings.color.g, text_settings.color.b,
    u8cast ((text_settings.color.a : Rat) * settings.opacity)⟩
  let twh := env.text_size scale font text
  let pos := calculate_text_position (image.width : Int) (image.height : Int)
    (twh.1 : Int) (twh.2 : Int) settings.position
  let image :=
    if text_settings.shadow then
      let shadow_color : Rgba := ⟨text_settings.shadow_color.r, text_settings.shadow_color.g,
        text_settings.shadow_color.b,
        u8cast ((text_settings.shadow_color.a : Rat) * settings.opacity)⟩
      env.draw_text_mut image shadow_color (pos.1 + text_settings.shadow_offset_x)
        (pos.2 + text_settings.shadow_offset_y) scale font text
    else image
  env.draw_text_mut image color pos.1 pos.2 scale font text

/-- Faithful embedding of `apply_text_watermark` (source lines 286-347):
resolve the template, soft-skip when it trims to empty, resolve the font
(exact family, then `Arial`, else the hard error), then draw. -/
def apply_text_watermark (env : RenderEnv) (fonts : List (List Char × Font)) (image : Img)
    (settings : WatermarkSettings) (text_settings : TextWatermarkSettings)
    (metadata : ImageMetadata) (filename : List Char) : Except (List Char) Img :=
  let text := replace_metadata_placeholders text_settings.text metadata filename
  if rustTrim text = [] then .ok image
  else
    match (lookupA fonts text_settings.font_family).orElse
        (fun _ => lookupA fonts "Arial".data) with
    | none => .error "No suitable font found".data
    | some font => .ok (draw_text_passes env image settings text_settings text font)

/-- Faithful embedding of `apply_image_watermark` (source lines 349-380):
load, scale dimensions through the truncating `f32`-to-`u32` cast, resample,
modulate every pixel's alpha by opacity, lay out, overlay. -/
def apply_image_watermark (env : RenderEnv) (image : Img) (settings : WatermarkSettings)
    (watermark_path : List Char) : Except (List Char) Img :=
  match env.image_open watermark_path with
  | none => .error "failed to open watermark image".data
  | some watermark =>
    let scaled_width := u32cast ((watermark.width : Rat) * settings.scale)
    let scaled_height := u32cast ((watermark.height : Rat) * settings.scale)
    let scaled_watermark := env.resize watermark scaled_width scaled_height
    let pos := calculate_image_position (image.width : Int) (image.height : Int)
      (scaled_width : Int) (scaled_height : Int) settings.position
    let watermark_rgba : Img := ⟨scaled_watermark.width, scaled_watermark.height,
      scaled_watermark.data.map fun p => ⟨p.r, p.g, p.b, u8cast ((p.a : Rat) * settings.opacity)⟩⟩
    .ok (env.overlay image watermark_rgba pos.1 pos.2)

/-- Faithful embedding of `apply_watermark` (source lines 246-284): disabled
short-circuit; dispatch on kind; missing sub-record is a diagnostic no-op;
empty font registry soft-skips the text path. -/
def apply_watermark (env : RenderEnv) (fonts : List (List Char × Font)) (image : Img)
    (settings : WatermarkSettings) (metadata : ImageMetadata) (filename : List Char) :
    Except (List Char) Img :=
  if !settings.enabled then .ok image
  else
    match settings.watermark_type with
    | .Text =>
      match settings.text_settings with
      | some text_settings =>
        if fonts.isEmpty then .ok image
        else apply_text_watermark env fonts image settings text_settings metadata filename
      | none => .ok image
    | .Image =>
      match settings.image_path with
      | some watermark_path => apply_image_watermark env image settings watermark_path
      | none => .ok image

/-- Modelled from the spec: the clamp-to-range treatment of numeric bounds
prescribed by spec section 7 (`InvalidSettings`): `scale` clamps to
[0.1, 2.0] and `opacity` to [0.0, 1.0].  This definition follows the spec's
words and exists only for comparison with the code. -/
def specClampSettings (settings : WatermarkSettings) : WatermarkSettings :=
  ⟨settings.enabled, settings.watermark_type, settings.position,
    max (1 / 10) (min 2 settings.scale), max 0 (min 1 settings.opacity),
    settings.text_settings, settings.image_path⟩

/-! ## Concrete instances used by witnesses and counterexamples -/

/-- An environment whose collaborators are inert. -/
def envW : RenderEnv :=
  ⟨fun _ _ _ => (0, 0), fun img _ _ _ _ _ _ => img, fun _ => none,
   fun img _ _ => img, fun img _ _ _ => img⟩

/-- An environment whose drawing appends the drawn color to the buffer and
whose loader returns a fixed two-by-two raster; it makes the drawn colors
observable in the result. -/
def envRec : RenderEnv :=
  ⟨fun _ _ _ => (7, 3),
   fun img c _ _ _ _ _ => ⟨img.width, img.height, img.data ++ [c]⟩,
   fun _ => some ⟨2, 2, [⟨10, 20, 30, 40⟩]⟩,
   fun img _ _ => img,
   fun img wm _ _ => ⟨img.width, img.height, img.data ++ wm.data⟩⟩

def img0 : Img := ⟨1, 1, [⟨9, 9, 9, 9⟩]⟩

def md0 : ImageMetadata := ⟨[]⟩

def fontsArial : List (List Char × Font) := [("Arial".data, ⟨0⟩)]

def fontsOnlyDefault : List (List Char × Font) := [("Default".data, ⟨0⟩)]

def tsAlpha200 : TextWatermarkSettings :=
  ⟨"W".data, 24, ⟨255, 255, 255, 200⟩, "Arial".data, false, false, false, ⟨0, 0, 0, 128⟩, 1, 1⟩

def tsAlpha201 : TextWatermarkSettings :=
  ⟨"W".data, 24, ⟨255, 255, 255, 201⟩, "Arial".data, false, false, false, ⟨0, 0, 0, 128⟩, 1, 1⟩

def tsComic : TextWatermarkSettings :=
  ⟨"W".data, 24, ⟨255, 255, 255, 255⟩, "Comic".data, false, false, false, ⟨0, 0, 0, 128⟩, 1, 1⟩

def settingsOp (op : Rat) : WatermarkSettings :=
  ⟨true, .Text, ⟨.Left, .Top, 0, 0⟩, 1, op, some tsAlpha200, none⟩

def settingsC3 : WatermarkSettings :=
  ⟨true, .Text, ⟨.Left, .Top, 0, 0⟩, 1, 3 / 4, some tsAlpha201, none⟩

def settingsComic : WatermarkSettings :=
  ⟨true, .Text, ⟨.Left, .Top, 0, 0⟩, 1, 1, some tsComic, none⟩

def settingsOff : WatermarkSettings :=
  ⟨false, .Text, ⟨.Right, .Bottom, 50, 50⟩, 1, 4 / 5, none, none⟩

def settingsNoText : WatermarkSettings :=
  ⟨true, .Text, ⟨.Left, .Top, 0, 0⟩, 1, 1, none, none⟩

def settingsInRange : WatermarkSettings :=
  ⟨true, .Text, ⟨.Left, .Top, 0, 0⟩, 1, 1 / 2, none, none⟩

def wmRec : Img := ⟨2, 2, [⟨10, 20, 30, 40⟩]⟩

def exifShutter : List (List Char × Json) := [("ExposureTime".data, Json.float (1 / 250))]

def exifShutterTiny : List (List Char × Json) :=
  [("ExposureTime".data, Json.float (1 / 10000000000))]

def exifBadMake : List (List Char × Json) := [("Make".data, Json.int 5)]

def segsW : List Seg :=
  [.lit "© ".data, .tok .photographer, .lit " with ".data, .tok .cameraMake]

def mdSony : ImageMetadata :=
  ⟨[("exif".data, Json.obj [("Make".data, Json.str "Sony".data)])]⟩

def mdInjected : ImageMetadata :=
  ⟨[("exif".data, Json.obj [("Make".data, Json.str "{iso}".data)])]⟩

theorem lookupA_eraseA_self {α : Type} (l : List (List Char × α)) (key : List Char) :
    lookupA (eraseA l key) key = none := by
  induction l with
  | nil => rfl
  | cons hd tl ih =>
    obtain ⟨k, v⟩ := hd
    by_cases h : k = key
    · simp [eraseA, h, ih]
    · simp [eraseA, lookupA, h, ih]

theorem lookupA_eraseA_ne {α : Type} (l : List (List Char × α)) (key other : List Char)
    (h : other ≠ key) : lookupA (eraseA l key) other = lookupA l other := by
  induction l with
  | nil => rfl
  | cons hd tl ih =>
    obtain ⟨k, v⟩ := hd
    simp only [eraseA, lookupA]
    by_cases hk : k = key
    · rw [if_pos hk, ih, if_neg (fun ho : k = other => h (ho ▸ hk))]
    · rw [if_neg hk]
      by_cases ho : k = other
      · simp only [lookupA, if_pos ho]
      · simp only [lookupA, if_neg ho, ih]

theorem replaceFuel_nil (pat rep : List Char) (fuel : Nat) :
    replaceFuel pat rep fuel [] = [] := by
  cases fuel <;> rfl

theorem replaceFuel_congr (pat rep : List Char) :
    ∀ (fuel₁ : Nat) (s : List Char) (fuel₂ : Nat), s.length ≤ fuel₁ → s.length ≤ fuel₂ →
      replaceFuel pat rep fuel₁ s = replaceFuel pat rep fuel₂ s := by
  intro fuel₁
  induction fuel₁ with
  | zero =>
    intro s fuel₂ h1 _
    have : s = [] := List.eq_nil_of_length_eq_zero (Nat.le_zero.mp h1)
    subst this
    rw [replaceFuel_nil, replaceFuel_nil]
  | succ f ih =>
    intro s fuel₂ h1 h2
    cases s with
    | nil => rw [replaceFuel_nil, replaceFuel_nil]
    | cons c rest =>
      cases fuel₂ with
      | zero => exact absurd h2 (by simp)
      | succ g =>
        show replaceFuel pat rep (f + 1) (c :: rest) = replaceFuel pat rep (g + 1) (c :: rest)
        simp only [replaceFuel]
        have hrest : rest.length ≤ f := by simpa using h1
        have hrest' : rest.length ≤ g := by simpa using h2
        split
        · have hd : (rest.drop (pat.length - 1)).length ≤ rest.length := by
            simp [List.length_drop]
          rw [ih _ g (le_trans hd hrest) (le_trans hd hrest')]
        · rw [ih _ g hrest hrest']

theorem replaceL_cons_pos (pat rep : List Char) (c : Char) (rest : List Char)
    (hne : pat ≠ []) (hpre : pat.isPrefixOf (c :: rest) = true) :
    replaceL pat rep (c :: rest) = rep ++ replaceL pat rep (rest.drop (pat.length - 1)) := by
  show replaceFuel pat rep (rest.length + 1) (c :: rest) = _
  simp only [replaceFuel, hne, hpre, and_self, if_true, ne_eq, not_false_iff, true_and]
  rw [replaceL, replaceFuel_congr pat rep rest.length _ (rest.drop (pat.length - 1)).length
    (by simp [List.length_drop]) (le_refl _)]

theorem replaceL_cons_neg (pat rep : List Char) (c : Char) (rest : List Char)
    (h : ¬(pat ≠ [] ∧ pat.isPrefixOf (c :: rest) = true)) :
    replaceL pat rep (c :: rest) = c :: replaceL pat rep rest := by
  show replaceFuel pat rep (rest.length + 1) (c :: rest) = _
  simp only [replaceFuel, h, if_false]
  rfl

theorem isPrefixOf_self_append (l s : List Char) : l.isPrefixOf (l ++ s) = true := by
  induction l with
  | nil => simp [List.isPrefixOf]
  | cons c t ih => simp [List.isPrefixOf, ih]

theorem replaceL_matched (pat rep s : List Char) (hne : pat ≠ []) :
    replaceL pat rep (pat ++ s) = rep ++ replaceL pat rep s := by
  cases pat with
  | nil => exact absurd rfl hne
  | cons c pt =>
    rw [List.cons_append, replaceL_cons_pos _ _ _ _ hne
      (by rw [← List.cons_append]; exact isPrefixOf_self_append _ _)]
    congr 1
    congr 1
    simp only [List.length_cons, Nat.add_sub_cancel]
    exact List.drop_left pt s

/-- Character copying over a chunk that contains no opening brace: a pattern
that begins with a brace cannot match anywhere inside such a chunk. -/
theorem replaceL_openfree_prepend (pat rep l s : List Char)
    (hpat : pat.head? = some '\x7b') (hl : ∀ c ∈ l, c ≠ '\x7b') :
    replaceL pat rep (l ++ s) = l ++ replaceL pat rep s := by
  induction l with
  | nil => rfl
  | cons c t ih =>
    have hc : c ≠ '\x7b' := hl c (List.mem_cons_self c t)
    have hnomatch : ¬(pat ≠ [] ∧ pat.isPrefixOf (c :: (t ++ s)) = true) := by
      rintro ⟨-, hpre⟩
      cases pat with
      | nil => simp at hpat
      | cons p pt =>
        have hp : p = '\x7b' := by simpa [List.head?] using hpat
        simp only [List.isPrefixOf, Bool.and_eq_true, beq_iff_eq] at hpre
        exact hc (hp ▸ hpre.1.symm)
    rw [List.cons_append, replaceL_cons_neg _ _ _ _ hnomatch,
      ih (fun d hd => hl d (List.mem_cons_of_mem c hd)), List.cons_append]

theorem not_isPrefixOf_of_divergeB :
    ∀ (t u s : List Char), divergeB t u = true → t.isPrefixOf (u ++ s) = false := by
  intro t
  induction t with
  | nil => intro u s h; cases u <;> simp [divergeB] at h
  | cons a t' ih =>
    intro u s h
    cases u with
    | nil => simp [divergeB] at h
    | cons b u' =>
      by_cases hab : a = b
      · simp only [divergeB, hab, if_true] at h
        simp [List.isPrefixOf, hab, ih u' s h]
      · simp [List.isPrefixOf, hab]

theorem resolve_eq_runSteps (text : List Char) (md : ImageMetadata) (fname : List Char) :
    replace_metadata_placeholders text md fname = runSteps (stepList md fname) text := by
  cases h : lookupA md.adjustments "exif".data with
  | none =>
    simp only [replace_metadata_placeholders, runSteps, stepList, List.foldl,
      vMake, vModel, vLens, vAperture, vShutter, vIso, vFocal, vDateTime, vArtist,
      h, Option.bind, tokStr, applyOpt]
  | some exif =>
    simp only [replace_metadata_placeholders, runSteps, stepList, List.foldl,
      vMake, vModel, vLens, vAperture, vShutter, vIso, vFocal, vDateTime, vArtist,
      h, Option.some_bind, tokStr, applyOpt]

theorem stepSeg_none (p : PTok) (sg : Seg) : stepSeg none p sg = sg := by
  cases sg <;> rfl

theorem stepSeg_lit (o : Option (List Char)) (p : PTok) (l : List Char) :
    stepSeg o p (.lit l) = .lit l := by
  cases o <;> rfl

theorem tokStr_ne_nil (p : PTok) : tokStr p ≠ [] := by
  cases p <;> decide

theorem tokStr_head (p : PTok) : (tokStr p).head? = some '\x7b' := by
  cases p <;> decide

theorem tokStr_decomp (p : PTok) : tokStr p = '\x7b' :: (tokStr p).tail := by
  cases p <;> decide

theorem tokStr_tail_openFree (p : PTok) : openFree (tokStr p).tail := by
  cases p <;> decide

theorem tokStr_divergeB (p q : PTok) (h : p ≠ q) : divergeB (tokStr p) (tokStr q) = true := by
  revert h; revert q; cases p <;> decide

/-- Scanning over a token different from the pattern copies it verbatim:
the pattern cannot match at its opening brace (the two tokens differ within
their common length) nor inside it (no inner opening brace). -/
theorem replaceL_token_other (p q : PTok) (rep s : List Char) (h : p ≠ q) :
    replaceL (tokStr p) rep (tokStr q ++ s) = tokStr q ++ replaceL (tokStr p) rep s := by
  have hd := tokStr_decomp q
  have hnomatch : ¬(tokStr p ≠ [] ∧ (tokStr p).isPrefixOf ('\x7b' :: ((tokStr q).tail ++ s)) = true) := by
    rintro ⟨-, hpre⟩
    have : (tokStr p).isPrefixOf (tokStr q ++ s) = false := by
      rw [not_isPrefixOf_of_divergeB _ _ _ (tokStr_divergeB p q h)]
    rw [hd, List.cons_append] at this
    rw [this] at hpre
    exact Bool.false_ne_true hpre
  calc replaceL (tokStr p) rep (tokStr q ++ s)
      = replaceL (tokStr p) rep ('\x7b' :: ((tokStr q).tail ++ s)) := by
        rw [← List.cons_append, ← hd]
    _ = '\x7b' :: replaceL (tokStr p) rep ((tokStr q).tail ++ s) :=
        replaceL_cons_neg _ _ _ _ hnomatch
    _ = '\x7b' :: ((tokStr q).tail ++ replaceL (tokStr p) rep s) := by
        rw [replaceL_openfree_prepend _ _ _ _ (tokStr_head p) (tokStr_tail_openFree q)]
    _ = tokStr q ++ replaceL (tokStr p) rep s := by
        rw [← List.cons_append, ← hd]

/-- One replacement pass over a rendered template acts segmentwise. -/
theorem replace_render (p : PTok) (v : List Char) (segs : List Seg)
    (hsegs : ∀ s ∈ segs, segOpenFree s) :
    replaceL (tokStr p) v (renderT segs) = renderT (segs.map (stepSeg (some v) p)) := by
  induction segs with
  | nil => simp [renderT, replaceL, replaceFuel_nil]
  | cons sg rest ih =>
    have hrest : ∀ s ∈ rest, segOpenFree s := fun s hs => hsegs s (List.mem_cons_of_mem sg hs)
    cases sg with
    | lit l =>
      have hl : openFree l := hsegs (.lit l) (List.mem_cons_self _ _)
      show replaceL (tokStr p) v (l ++ renderT rest) = renderT (.lit l :: rest.map _)
      rw [replaceL_openfree_prepend _ _ _ _ (tokStr_head p) hl, ih hrest]
      rfl
    | tok q =>
      by_cases hpq : q = p
      · subst hpq
        show replaceL (tokStr q) v (tokStr q ++ renderT rest) = renderT (stepSeg (some v) q (.tok q) :: rest.map _)
        rw [replaceL_matched _ _ _ (tokStr_ne_nil q), ih hrest]
        simp [stepSeg, renderT]
      · show replaceL (tokStr p) v (tokStr q ++ renderT rest) = renderT (stepSeg (some v) p (.tok q) :: rest.map _)
        rw [replaceL_token_other p q v _ (fun he => hpq he.symm), ih hrest]
        simp [stepSeg, hpq, renderT]

theorem applyOpt_render (o : Option (List Char)) (p : PTok) (segs : List Seg)
    (hsegs : ∀ s ∈ segs, segOpenFree s) :
    applyOpt o (tokStr p) (renderT segs) = renderT (segs.map (stepSeg o p)) := by
  cases o with
  | none =>
    show renderT segs = renderT (segs.map (stepSeg none p))
    rw [show stepSeg none p = fun sg => sg from funext (stepSeg_none p), List.map_id']
  | some v => exact replace_render p v segs hsegs

theorem stepSeg_openFree (o : Option (List Char)) (p : PTok) (sg : Seg)
    (hsg : segOpenFree sg) (ho : ∀ v, o = some v → openFree v) :
    segOpenFree (stepSeg o p sg) := by
  cases sg with
  | lit l => rw [stepSeg_lit]; exact hsg
  | tok q =>
    cases o with
    | none => rw [stepSeg_none]; exact hsg
    | some v =>
      show segOpenFree (if q = p then Seg.lit v else Seg.tok q)
      by_cases hqp : q = p
      · rw [if_pos hqp]; exact ho v rfl
      · rw [if_neg hqp]; trivial

/-- A sequence of replacement passes over a rendered template acts
segmentwise, provided literal chunks and all substituted values are free of
opening braces. -/
theorem runSteps_render (steps : List (PTok × Option (List Char))) (segs : List Seg)
    (hsegs : ∀ s ∈ segs, segOpenFree s)
    (hsteps : ∀ pr ∈ steps, ∀ v, pr.2 = some v → openFree v) :
    runSteps steps (renderT segs) = renderT (segs.map (segMapOf steps)) := by
  induction steps generalizing segs with
  | nil =>
    show renderT segs = renderT (segs.map (fun sg => sg))
    rw [List.map_id']
  | cons pr rest ih =>
    obtain ⟨p, o⟩ := pr
    show runSteps rest (applyOpt o (tokStr p) (renderT segs)) = _
    rw [applyOpt_render o p segs hsegs]
    have hsegs' : ∀ s ∈ segs.map (stepSeg o p), segOpenFree s := by
      intro s hs
      obtain ⟨sg, hsg, rfl⟩ := List.mem_map.mp hs
      exact stepSeg_openFree o p sg (hsegs sg hsg)
        (fun v hv => hsteps (p, o) (List.mem_cons_self _ _) v hv)
    rw [ih (segs.map (stepSeg o p)) hsegs'
      (fun q hq v hv => hsteps q (List.mem_cons_of_mem _ hq) v hv)]
    rw [List.map_map]
    rfl

theorem segMapOf_lit (steps : List (PTok × Option (List Char))) (l : List Char) :
    segMapOf steps (.lit l) = .lit l := by
  induction steps with
  | nil => rfl
  | cons pr rest ih =>
    show segMapOf rest (stepSeg pr.2 pr.1 (.lit l)) = .lit l
    rw [stepSeg_lit]
    exact ih

theorem segMapOf_nil (sg : Seg) : segMapOf [] sg = sg := rfl

theorem segMapOf_cons (pr : PTok × Option (List Char)) (rest : List (PTok × Option (List Char)))
    (sg : Seg) : segMapOf (pr :: rest) sg = segMapOf rest (stepSeg pr.2 pr.1 sg) := rfl

theorem stepSeg_tok_ne (o : Option (List Char)) (p q : PTok) (h : q ≠ p) :
    stepSeg o p (.tok q) = .tok q := by
  cases o with
  | none => rfl
  | some v => simp [stepSeg, h]

theorem stepSeg_tok_self_some (v : List Char) (p : PTok) :
    stepSeg (some v) p (.tok p) = .lit v := by
  simp [stepSeg]

theorem segMapOf_stepList_tok (md : ImageMetadata) (fname : List Char) (p : PTok) :
    segMapOf (stepList md fname) (.tok p) = .lit (tokenValue p md fname) := by
  cases p
  case cameraMake =>
    cases hv : vMake md <;>
      simp [stepList, segMapOf_cons, segMapOf_nil, segMapOf_lit, stepSeg_tok_ne,
        stepSeg_tok_self_some, stepSeg_none, tokenValue, hv]
  case cameraModel =>
    cases hv : vModel md <;>
      simp [stepList, segMapOf_cons, segMapOf_nil, segMapOf_lit, stepSeg_tok_ne,
        stepSeg_tok_self_some, stepSeg_none, tokenValue, hv]
  case lensModel =>
    cases hv : vLens md <;>
      simp [stepList, segMapOf_cons, segMapOf_nil, segMapOf_lit, stepSeg_tok_ne,
        stepSeg_tok_self_some, stepSeg_none, tokenValue, hv]
  case aperture =>
    cases hv : vAperture md <;>
      simp [stepList, segMapOf_cons, segMapOf_nil, segMapOf_lit, stepSeg_tok_ne,
        stepSeg_tok_self_some, stepSeg_none, tokenValue, hv]
  case shutterSpeed =>
    cases hv : vShutter md <;>
      simp [stepList, segMapOf_cons, segMapOf_nil, segMapOf_lit, stepSeg_tok_ne,
        stepSeg_tok_self_some, stepSeg_none, tokenValue, hv]
  case iso =>
    cases hv : vIso md <;>
      simp [stepList, segMapOf_cons, segMapOf_nil, segMapOf_lit, stepSeg_tok_ne,
        stepSeg_tok_self_some, stepSeg_none, tokenValue, hv]
  case focalLength =>
    cases hv : vFocal md <;>
      simp [stepList, segMapOf_cons, segMapOf_nil, segMapOf_lit, stepSeg_tok_ne,
        stepSeg_tok_self_some, stepSeg_none, tokenValue, hv]
  case dateTime =>
    cases hv : vDateTime md <;>
      simp [stepList, segMapOf_cons, segMapOf_nil, segMapOf_lit, stepSeg_tok_ne,
        stepSeg_tok_self_some, stepSeg_none, tokenValue, hv]
  case photographer =>
    cases hv : vArtist md <;>
      simp [stepList, segMapOf_cons, segMapOf_nil, segMapOf_lit, stepSeg_tok_ne,
        stepSeg_tok_self_some, stepSeg_none, tokenValue, hv]
  case filenameTok =>
    simp [stepList, segMapOf_cons, segMapOf_nil, segMapOf_lit, stepSeg_tok_ne,
      stepSeg_tok_self_some, tokenValue]

theorem stepList_values (md : ImageMetadata) (fname : List Char)
    (hvals : ∀ p : PTok, openFree (tokenValue p md fname)) :
    ∀ pr ∈ stepList md fname, ∀ v, pr.2 = some v → openFree v := by
  intro pr hpr v hv
  have hnil : openFree ([] : List Char) := by intro c hc; cases hc
  simp only [stepList, List.mem_cons, List.not_mem_nil, or_false] at hpr
  rcases hpr with rfl | rfl | rfl | rfl | rfl | rfl | rfl | rfl | rfl | rfl
    | rfl | rfl | rfl | rfl | rfl | rfl | rfl | rfl | rfl
  · have h := hvals .cameraMake
    have hv' : vMake md = some v := hv
    simp only [tokenValue, hv', Option.getD_some] at h; exact h
  · have h := hvals .cameraModel
    have hv' : vModel md = some v := hv
    simp only [tokenValue, hv', Option.getD_some] at h; exact h
  · have h := hvals .lensModel
    have hv' : vLens md = some v := hv
    simp only [tokenValue, hv', Option.getD_some] at h; exact h
  · have h := hvals .aperture
    have hv' : vAperture md = some v := hv
    simp only [tokenValue, hv', Option.getD_some] at h; exact h
  · have h := hvals .shutterSpeed
    have hv' : vShutter md = some v := hv
    simp only [tokenValue, hv', Option.getD_some] at h; exact h
  · have h := hvals .iso
    have hv' : vIso md = some v := hv
    simp only [tokenValue, hv', Option.getD_some] at h; exact h
  · have h := hvals .focalLength
    have hv' : vFocal md = some v := hv
    simp only [tokenValue, hv', Option.getD_some] at h; exact h
  · have h := hvals .dateTime
    have hv' : vDateTime md = some v := hv
    simp only [tokenValue, hv', Option.getD_some] at h; exact h
  · have h := hvals .photographer
    have hv' : vArtist md = some v := hv
    simp only [tokenValue, hv', Option.getD_some] at h; exact h
  · have hv' : some fname = some v := hv
    cases hv'; exact hvals .filenameTok
  · have hv' : some ([] : List Char) = some v := hv
    cases hv'; exact hnil
  · have hv' : some ([] : List Char) = some v := hv
    cases hv'; exact hnil
  · have hv' : some ([] : List Char) = some v := hv
    cases hv'; exact hnil
  · have hv' : some ([] : List Char) = some v := hv
    cases hv'; exact hnil
  · have hv' : some ([] : List Char) = some v := hv
    cases hv'; exact hnil
  · have hv' : some ([] : List Char) = some v := hv
    cases hv'; exact hnil
  · have hv' : some ([] : List Char) = some v := hv
    cases hv'; exact hnil
  · have hv' : some ([] : List Char) = some v := hv
    cases hv'; exact hnil
  · have hv' : some ([] : List Char) = some v := hv
    cases hv'; exact hnil

/-- The resolver on a rendered template equals the simultaneous substitution
when literal chunks and all substituted values are free of opening braces. -/
theorem resolve_renderT_eq_parallel (md : ImageMetadata) (fname : List Char) (segs : List Seg)
    (hsegs : ∀ s ∈ segs, segOpenFree s)
    (hvals : ∀ p : PTok, openFree (tokenValue p md fname)) :
    replace_metadata_placeholders (renderT segs) md fname =
      renderT (segs.map (parSeg md fname)) := by
  rw [resolve_eq_runSteps, runSteps_render _ _ hsegs (stepList_values md fname hvals)]
  congr 1
  apply List.map_congr_left
  intro sg hsg
  cases sg with
  | lit l => rw [segMapOf_lit]; rfl
  | tok p => rw [segMapOf_stepList_tok]; rfl

/-! ## Evaluation and no-occurrence helper lemmas -/

theorem floorEval (n : Int) (q : Rat) (h1 : (n : Rat) ≤ q) (h2 : q < n + 1) : ⌊q⌋ = n :=
  Int.floor_eq_iff.mpr ⟨h1, h2⟩

theorem digitChar_ne_brace (n : Nat) : digitChar n ≠ '\x7b' := by
  unfold digitChar
  split_ifs <;> decide

theorem natCharsAux_ne_brace :
    ∀ (fuel n : Nat), ∀ c ∈ natCharsAux fuel n, c ≠ '\x7b' := by
  intro fuel
  induction fuel with
  | zero => intro n c hc; simp [natCharsAux] at hc
  | succ f ih =>
    intro n c hc
    simp only [natCharsAux] at hc
    split at hc
    · rw [List.mem_singleton] at hc
      exact hc ▸ digitChar_ne_brace n
    · rcases List.mem_append.mp hc with h | h
      · exact ih _ c h
      · rw [List.mem_singleton] at h
        exact h ▸ digitChar_ne_brace (n % 10)

theorem openFree_natChars (n : Nat) : openFree (natChars n) :=
  fun c hc => natCharsAux_ne_brace _ _ c hc

theorem openFree_intChars (i : Int) : openFree (intChars i) := by
  intro c hc
  unfold intChars at hc
  split at hc
  · rcases List.mem_cons.mp hc with h | h
    · exact h ▸ (by decide)
    · exact openFree_natChars _ c h
  · exact openFree_natChars _ c hc

theorem openFree_fmt1 (q : Rat) : openFree (fmt1 q) := by
  intro c hc
  simp only [fmt1] at hc
  rcases List.mem_append.mp hc with h | h
  · rcases List.mem_append.mp h with h' | h'
    · split at h'
      · rw [List.mem_singleton] at h'
        exact h' ▸ (by decide)
      · simp at h'
    · exact openFree_natChars _ c h'
  · rcases List.mem_cons.mp h with h' | h'
    · exact h' ▸ (by decide)
    · exact openFree_natChars _ c h'

theorem openFree_fmt0 (q : Rat) : openFree (fmt0 q) := by
  intro c hc
  simp only [fmt0] at hc
  rcases List.mem_append.mp hc with h | h
  · split at h
    · rw [List.mem_singleton] at h
      exact h ▸ (by decide)
    · simp at h
  · exact openFree_natChars _ c h

theorem openFree_shutterChars (t : Rat) : openFree (shutterChars t) := by
  unfold shutterChars
  split
  · exact openFree_fmt1 t
  · intro c hc
    rcases List.mem_cons.mp hc with h | h
    · exact h ▸ (by decide)
    · rcases List.mem_cons.mp h with h' | h'
      · exact h' ▸ (by decide)
      · exact openFree_intChars _ c h'

/-- A pattern that is a recognized token never matches inside a brace-free
string, so replacing it there is the identity. -/
theorem replaceL_openFree_id (p : PTok) (rep s : List Char) (hs : openFree s) :
    replaceL (tokStr p) rep s = s := by
  have h := replaceL_openfree_prepend (tokStr p) rep s [] (tokStr_head p) hs
  rw [List.append_nil] at h
  rw [h]
  simp [replaceL, replaceFuel_nil]

theorem applyOpt_id (o : Option (List Char)) (token s : List Char)
    (h : ∀ v, replaceL token v s = s) : applyOpt o token s = s := by
  cases o with
  | none => rfl
  | some v => exact h v

theorem replaceL_self (pat rep : List Char) (hne : pat ≠ []) :
    replaceL pat rep pat = rep := by
  have h := replaceL_matched pat rep [] hne
  rw [List.append_nil] at h
  rw [h]
  simp [replaceL, replaceFuel_nil]

/-- Resolution of the template consisting of exactly the `{shutter_speed}`
token, for any metadata whose exif object carries an `ExposureTime` number:
all other passes leave the string unchanged and the leftover-removal passes
cannot touch the brace-free formatted value. -/
theorem resolve_shutter_eq (t : Rat) (exif adjRest : List (List Char × Json))
    (fname : List Char) (j : Json)
    (hj : lookupA exif "ExposureTime".data = some j)
    (hf : as_f64 j = some t) :
    replace_metadata_placeholders "{shutter_speed}".data
      ⟨("exif".data, Json.obj exif) :: adjRest⟩ fname = shutterChars t := by
  have eShutter : vShutter ⟨("exif".data, Json.obj exif) :: adjRest⟩ = some (shutterChars t) := by
    unfold vShutter
    show (lookupA (("exif".data, Json.obj exif) :: adjRest) "exif".data).bind
      (fun exif => ((jget exif "ExposureTime".data).bind as_f64).map shutterChars)
      = some (shutterChars t)
    rw [show lookupA (("exif".data, Json.obj exif) :: adjRest) "exif".data
      = some (Json.obj exif) from by simp [lookupA]]
    rw [Option.some_bind]
    show ((lookupA exif "ExposureTime".data).bind as_f64).map shutterChars = some (shutterChars t)
    rw [hj, Option.some_bind, hf, Option.map_some']
  have h1 : applyOpt (vMake ⟨("exif".data, Json.obj exif) :: adjRest⟩)
      (tokStr .cameraMake) "{shutter_speed}".data
      = "{shutter_speed}".data := applyOpt_id _ _ _ (fun v => rfl)
  have h2 : applyOpt (vModel ⟨("exif".data, Json.obj exif) :: adjRest⟩)
      (tokStr .cameraModel) "{shutter_speed}".data
      = "{shutter_speed}".data := applyOpt_id _ _ _ (fun v => rfl)
  have h3 : applyOpt (vLens ⟨("exif".data, Json.obj exif) :: adjRest⟩)
      (tokStr .lensModel) "{shutter_speed}".data
      = "{shutter_speed}".data := applyOpt_id _ _ _ (fun v => rfl)
  have h4 : applyOpt (vAperture ⟨("exif".data, Json.obj exif) :: adjRest⟩)
      (tokStr .aperture) "{shutter_speed}".data
      = "{shutter_speed}".data := applyOpt_id _ _ _ (fun v => rfl)
  have h5 : applyOpt (vShutter ⟨("exif".data, Json.obj exif) :: adjRest⟩)
      (tokStr .shutterSpeed) "{shutter_speed}".data
      = shutterChars t := by
    rw [eShutter]
    show replaceL "{shutter_speed}".data (shutterChars t) "{shutter_speed}".data = _
    exact replaceL_self _ _ (by decide)
  have hid : ∀ (p : PTok) (o : Option (List Char)),
      applyOpt o (tokStr p) (shutterChars t) = shutterChars t :=
    fun p o => applyOpt_id _ _ _ (fun v => replaceL_openFree_id p v _ (openFree_shutterChars t))
  rw [resolve_eq_runSteps]
  simp only [runSteps, stepList, List.foldl]
  rw [h1, h2, h3, h4, h5, hid .iso, hid .focalLength, hid .dateTime, hid .photographer,
    hid .filenameTok, hid .cameraMake, hid .cameraModel, hid .lensModel, hid .aperture,
    hid .shutterSpeed, hid .iso, hid .focalLength, hid .dateTime, hid .photographer]

theorem u8cast_eval (q : Rat) (n : Int) (h0 : ¬q < 0) (h1 : ⌊q⌋ = n) :
    u8cast q = min 255 n.toNat := by
  rw [u8cast, if_neg h0, h1]

/-- Unfolding of the enabled text path once the template resolves to
non-blank text and a font resolves: the call reduces to the drawing
passes. -/
theorem apply_text_unfold (env : RenderEnv) (fonts : List (List Char × Font)) (image : Img)
    (settings : WatermarkSettings) (ts : TextWatermarkSettings)
    (metadata : ImageMetadata) (filename : List Char) (font : Font)
    (hen : settings.enabled = true) (hw : settings.watermark_type = .Text)
    (hts : settings.text_settings = some ts)
    (hne : fonts.isEmpty = false)
    (htrim : ¬rustTrim (replace_metadata_placeholders ts.text metadata filename) = [])
    (hfont : (lookupA fonts ts.font_family).orElse (fun _ => lookupA fonts "Arial".data)
      = some font) :
    apply_watermark env fonts image settings metadata filename =
      .ok (draw_text_passes env image settings ts
        (replace_metadata_placeholders ts.text metadata filename) font) := by
  simp [apply_watermark, apply_text_watermark, hen, hw, hts, hne, htrim, hfont]

/-- C5: for every input raster, settings record, metadata and filename,
`apply_watermark` with `enabled = false` returns the raster byte-identical
to the input (in the pure model, the returned raster is the input itself,
so no mutation is performed). -/
theorem C5_disabled_is_identity (env : RenderEnv) (fonts : List (List Char × Font))
    (image : Img) (settings : WatermarkSettings) (metadata : ImageMetadata)
    (filename : List Char) (h : settings.enabled = false) :
    apply_watermark env fonts image settings metadata filename = .ok image := by
  simp [apply_watermark, h]

theorem C5_witness :
    settingsOff.enabled = false ∧
    apply_watermark envW [] img0 settingsOff md0 [] = .ok img0 :=
  ⟨rfl, C5_disabled_is_identity envW [] img0 settingsOff md0 [] rfl⟩

/-- C6: an enabled call whose required sub-record is missing (Text with no
text settings, Image with no path), or whose resolved text trims to the
empty string, returns the raster unchanged with success. -/
theorem C6_missing_inputs_soft_noop (env : RenderEnv) (fonts : List (List Char × Font))
    (image : Img) (settings : WatermarkSettings) (metadata : ImageMetadata)
    (filename : List Char)
    (hen : settings.enabled = true)
    (h : (settings.watermark_type = .Text ∧ settings.text_settings = none) ∨
         (settings.watermark_type = .Image ∧ settings.image_path = none) ∨
         (∃ ts, settings.watermark_type = .Text ∧ settings.text_settings = some ts ∧
            rustTrim (replace_metadata_placeholders ts.text metadata filename) = [])) :
    apply_watermark env fonts image settings metadata filename = .ok image := by
  rcases h with ⟨hw, hts⟩ | ⟨hw, hp⟩ | ⟨ts, hw, hts, htrim⟩
  · simp [apply_watermark, hen, hw, hts]
  · simp [apply_watermark, hen, hw, hp]
  · by_cases hf : fonts.isEmpty <;>
      simp [apply_watermark, hen, hw, hts, hf, apply_text_watermark, htrim]

theorem C6_witness :
    settingsNoText.enabled = true ∧
    apply_watermark envW [] img0 settingsNoText md0 [] = .ok img0 :=
  ⟨rfl, C6_missing_inputs_soft_noop envW [] img0 settingsNoText md0 [] rfl (Or.inl ⟨rfl, rfl⟩)⟩

/-- C7: on the enabled text path with non-blank resolved text, font
resolution is two-level (exact family entry, else the `Arial` entry, else
the `No suitable font found` error with no drawing performed), except that
an entirely empty registry soft-skips with success. -/
theorem C7_font_resolution (env : RenderEnv) (fonts : List (List Char × Font))
    (image : Img) (settings : WatermarkSettings) (ts : TextWatermarkSettings)
    (metadata : ImageMetadata) (filename : List Char)
    (hen : settings.enabled = true) (hw : settings.watermark_type = .Text)
    (hts : settings.text_settings = some ts) :
    (fonts = [] → apply_watermark env fonts image settings metadata filename = .ok image) ∧
    (rustTrim (replace_metadata_placeholders ts.text metadata filename) ≠ [] →
      ((∀ font, lookupA fonts ts.font_family = some font →
          apply_watermark env fonts image settings metadata filename =
            .ok (draw_text_passes env image settings ts
              (replace_metadata_placeholders ts.text metadata filename) font)) ∧
       (lookupA fonts ts.font_family = none →
          ∀ font, lookupA fonts "Arial".data = some font →
          apply_watermark env fonts image settings metadata filename =
            .ok (draw_text_passes env image settings ts
              (replace_metadata_placeholders ts.text metadata filename) font)) ∧
       (fonts ≠ [] → lookupA fonts ts.font_family = none →
          lookupA fonts "Arial".data = none →
          apply_watermark env fonts image settings metadata filename =
            .error "No suitable font found".data))) := by
  refine ⟨fun hf => ?_, fun htrim => ⟨fun font hfont => ?_, fun hn1 font hfont => ?_,
    fun hne hn1 hn2 => ?_⟩⟩
  · subst hf
    simp [apply_watermark, hen, hw, hts]
  · have hnil : fonts ≠ [] := by rintro rfl; simp [lookupA] at hfont
    have hie : fonts.isEmpty = false := by
      cases fonts with
      | nil => exact absurd rfl hnil
      | cons a l => rfl
    exact apply_text_unfold env fonts image settings ts metadata filename font hen hw hts hie
      htrim (by rw [hfont]; rfl)
  · have hnil : fonts ≠ [] := by rintro rfl; simp [lookupA] at hfont
    have hie : fonts.isEmpty = false := by
      cases fonts with
      | nil => exact absurd rfl hnil
      | cons a l => rfl
    refine apply_text_unfold env fonts image settings ts metadata filename font hen hw hts hie
      htrim ?_
    rw [hn1]
    simpa [Option.orElse] using hfont
  · have hie : fonts.isEmpty = false := by
      cases fonts with
      | nil => exact absurd rfl hne
      | cons a l => rfl
    simp [apply_watermark, hen, hw, hts, hie, apply_text_watermark, htrim, hn1, hn2,
      Option.orElse]

theorem C7_witness :
    apply_watermark envW fontsOnlyDefault img0 settingsComic md0 [] =
      .error "No suitable font found".data :=
  ((C7_font_resolution envW fontsOnlyDefault img0 settingsComic tsComic md0 [] rfl rfl rfl).2
    (by decide)).2.2 (by decide) (by decide) (by decide)

theorem wrap32_id (n : Int) (h : inI32 n) : wrap32 n = n := by
  obtain ⟨h1, h2⟩ := h
  unfold wrap32
  rw [Int.emod_eq_of_lt (by omega) (by omega)]
  omega

/-- C4 (amended): the source computes the per-axis position in wrapping
`i32` arithmetic.  Whenever the differences `W − w`, `W − w − marginX`,
`H − h` and `H − h − marginY` lie within the `i32` range, the position is
the claimed `(max 0 x0, max 0 y0)` — margin for `Left`/`Top`, truncating
division of the difference for `Center`, difference minus margin for
`Right`/`Bottom` — with no clamping at the upper edge, and both returned
coordinates are nonnegative; when a subtraction overflows it wraps instead
(see the counterexample). -/
theorem C4_position_formula (W H w h : Int) (pos : WatermarkPosition)
    (h1 : inI32 (W - w)) (h2 : inI32 (W - w - pos.margin_x))
    (h3 : inI32 (H - h)) (h4 : inI32 (H - h - pos.margin_y)) :
    calculate_text_position W H w h pos =
      (max 0 (match pos.horizontal with
        | HorizontalAlignment.Left => pos.margin_x
        | HorizontalAlignment.Center => Int.tdiv (W - w) 2
        | HorizontalAlignment.Right => W - w - pos.margin_x),
       max 0 (match pos.vertical with
        | VerticalAlignment.Top => pos.margin_y
        | VerticalAlignment.Center => Int.tdiv (H - h) 2
        | VerticalAlignment.Bottom => H - h - pos.margin_y)) ∧
    0 ≤ (calculate_text_position W H w h pos).1 ∧
    0 ≤ (calculate_text_position W H w h pos).2 := by
  refine ⟨?_, ?_, ?_⟩ <;>
    cases hh : pos.horizontal <;> cases hv : pos.vertical <;>
      simp [calculate_text_position, hh, hv, max_comm, le_max_right,
        wrap32_id _ h1, wrap32_id _ h2, wrap32_id _ h3, wrap32_id _ h4]

theorem C4_witness :
    (inI32 ((1000 : Int) - 200) ∧ inI32 ((1000 : Int) - 200 - 50) ∧
     inI32 ((800 : Int) - 30) ∧ inI32 ((800 : Int) - 30 - 50)) ∧
    calculate_text_position 1000 800 200 30 ⟨.Right, .Bottom, 50, 50⟩ = (750, 720) :=
  ⟨⟨by decide, by decide, by decide, by decide⟩,
   ((C4_position_formula 1000 800 200 30 ⟨.Right, .Bottom, 50, 50⟩
      (by decide) (by decide) (by decide) (by decide)).1).trans (by decide)⟩

/-- C4 is false as stated: with `margin_x` equal to the minimum `i32`, the
source's subtraction `W − w − marginX` overflows and wraps to a negative
value, so the computed x is 0, while the claimed formula value
`max(0, W − w − marginX)` is the large positive `2147484448`. -/
theorem C4_counterexample :
    calculate_text_position 1000 800 200 30 ⟨.Right, .Bottom, -2147483648, 50⟩ = (0, 720) ∧
    (0 : Int) ≠ max 0 (1000 - 200 - (-2147483648 : Int)) := by
  constructor <;> decide

/-- C9: the text-path and image-path layout computations are the same
function. -/
theorem C9_layouts_identical (W H w h : Int) (pos : WatermarkPosition) :
    calculate_text_position W H w h pos = calculate_image_position W H w h pos := rfl

/-- C2 (amended): the code performs no clamping of `scale` or `opacity`;
for calls whose values already lie in the declared ranges the claimed
equality with the clamped call holds (clamping is the identity there), and
out-of-range values are used as given (see the counterexample). -/
theorem C2_clamp_identity_in_range (env : RenderEnv) (fonts : List (List Char × Font))
    (image : Img) (settings : WatermarkSettings) (metadata : ImageMetadata)
    (filename : List Char)
    (hs1 : 1 / 10 ≤ settings.scale) (hs2 : settings.scale ≤ 2)
    (ho1 : 0 ≤ settings.opacity) (ho2 : settings.opacity ≤ 1) :
    apply_watermark env fonts image settings metadata filename =
      apply_watermark env fonts image (specClampSettings settings) metadata filename := by
  have h : specClampSettings settings = settings := by
    unfold specClampSettings
    rw [min_eq_right hs2, max_eq_right hs1, min_eq_right ho2, max_eq_right ho1]
  rw [h]

theorem C2_witness :
    ((1 : Rat) / 10 ≤ settingsInRange.scale ∧ settingsInRange.scale ≤ 2 ∧
      (0 : Rat) ≤ settingsInRange.opacity ∧ settingsInRange.opacity ≤ 1) ∧
    apply_watermark envW [] img0 settingsInRange md0 [] =
      apply_watermark envW [] img0 (specClampSettings settingsInRange) md0 [] :=
  ⟨⟨by norm_num [settingsInRange], by norm_num [settingsInRange],
    by norm_num [settingsInRange], by norm_num [settingsInRange]⟩,
   C2_clamp_identity_in_range envW [] img0 settingsInRange md0 []
     (by norm_num [settingsInRange]) (by norm_num [settingsInRange])
     (by norm_num [settingsInRange]) (by norm_num [settingsInRange])⟩

/-- C2 is false as stated: with opacity `1.5`, source alpha `200` draws
alpha `255` (saturating cast), while opacity `1.0` draws alpha `200`, so the
two calls differ; no clamping happens. -/
theorem C2_counterexample :
    apply_watermark envRec fontsArial img0 (settingsOp (3 / 2)) md0 [] ≠
      apply_watermark envRec fontsArial img0 (settingsOp 1) md0 [] := by
  have e1 : apply_watermark envRec fontsArial img0 (settingsOp (3 / 2)) md0 [] =
      .ok ⟨1, 1, [⟨9, 9, 9, 9⟩, ⟨255, 255, 255, u8cast (((200 : Nat) : Rat) * (3 / 2))⟩]⟩ := by
    rw [apply_text_unfold envRec fontsArial img0 (settingsOp (3 / 2)) tsAlpha200 md0 [] ⟨0⟩
      rfl rfl rfl rfl (by decide) (by decide)]
    rfl
  have e2 : apply_watermark envRec fontsArial img0 (settingsOp 1) md0 [] =
      .ok ⟨1, 1, [⟨9, 9, 9, 9⟩, ⟨255, 255, 255, u8cast (((200 : Nat) : Rat) * 1)⟩]⟩ := by
    rw [apply_text_unfold envRec fontsArial img0 (settingsOp 1) tsAlpha200 md0 [] ⟨0⟩
      rfl rfl rfl rfl (by decide) (by decide)]
    rfl
  have v1 : u8cast (((200 : Nat) : Rat) * (3 / 2)) = 255 := by
    rw [u8cast_eval _ 300 (by norm_num) (floorEval 300 _ (by norm_num) (by norm_num))]
    decide
  have v2 : u8cast (((200 : Nat) : Rat) * 1) = 200 := by
    rw [u8cast_eval _ 200 (by norm_num) (floorEval 200 _ (by norm_num) (by norm_num))]
    decide
  rw [e1, e2, v1, v2]
  intro h
  exact absurd (Except.ok.inj h) (by decide)

/-- C3 (amended): effective alpha on both paths is the saturating truncation
toward zero of `A × opacity` (the `f32`-to-`u8` `as` cast), not
round-to-nearest: on the text path the drawn color is
`(R, G, B, u8cast (A * opacity))` with the shadow color modulated
identically, and on the image path every watermark pixel's alpha becomes
`u8cast (alpha * opacity)`. -/
theorem C3_alpha_is_saturating_truncation (env : RenderEnv) (image : Img)
    (settings : WatermarkSettings) (ts : TextWatermarkSettings) (text : List Char)
    (font : Font) (path : List Char) (wm : Img)
    (hopen : env.image_open path = some wm) :
    (let scale := ts.font_size * settings.scale
     let twh := env.text_size scale font text
     let pos := calculate_text_position (image.width : Int) (image.height : Int)
       (twh.1 : Int) (twh.2 : Int) settings.position
     draw_text_passes env image settings ts text font =
       env.draw_text_mut
         (if ts.shadow then
            env.draw_text_mut image
              ⟨ts.shadow_color.r, ts.shadow_color.g, ts.shadow_color.b,
                u8cast ((ts.shadow_color.a : Rat) * settings.opacity)⟩
              (pos.1 + ts.shadow_offset_x) (pos.2 + ts.shadow_offset_y) scale font text
          else image)
         ⟨ts.color.r, ts.color.g, ts.color.b, u8cast ((ts.color.a : Rat) * settings.opacity)⟩
         pos.1 pos.2 scale font text) ∧
    (let sw := u32cast ((wm.width : Rat) * settings.scale)
     let sh := u32cast ((wm.height : Rat) * settings.scale)
     let scaled := env.resize wm sw sh
     let pos := calculate_image_position (image.width : Int) (image.height : Int)
       (sw : Int) (sh : Int) settings.position
     apply_image_watermark env image settings path =
       .ok (env.overlay image
         ⟨scaled.width, scaled.height,
          scaled.data.map fun p => ⟨p.r, p.g, p.b, u8cast ((p.a : Rat) * settings.opacity)⟩⟩
         pos.1 pos.2)) := by
  constructor
  · rfl
  · simp only [apply_image_watermark, hopen]

theorem C3_witness :
    envRec.image_open "wm.png".data = some wmRec ∧
    (let sw := u32cast ((wmRec.width : Rat) * (settingsOp 1).scale)
     let sh := u32cast ((wmRec.height : Rat) * (settingsOp 1).scale)
     let scaled := envRec.resize wmRec sw sh
     let pos := calculate_image_position (img0.width : Int) (img0.height : Int)
       (sw : Int) (sh : Int) (settingsOp 1).position
     apply_image_watermark envRec img0 (settingsOp 1) "wm.png".data =
       .ok (envRec.overlay img0
         ⟨scaled.width, scaled.height,
          scaled.data.map fun p => ⟨p.r, p.g, p.b, u8cast ((p.a : Rat) * (settingsOp 1).opacity)⟩⟩
         pos.1 pos.2)) :=
  ⟨rfl, (C3_alpha_is_saturating_truncation envRec img0 (settingsOp 1) tsAlpha200 []
    ⟨0⟩ "wm.png".data wmRec rfl).2⟩

/-- C3 is false as stated: with source alpha `201` and opacity `0.75` the
drawn alpha is `150` (truncation of `150.75`), while rounding to the nearest
byte would give `151`. -/
theorem C3_counterexample :
    apply_watermark envRec fontsArial img0 settingsC3 md0 [] =
      .ok ⟨1, 1, [⟨9, 9, 9, 9⟩, ⟨255, 255, 255, 150⟩]⟩ ∧
    (150 : Int) ≠ rround (((201 : Nat) : Rat) * (3 / 4)) := by
  have vr : rround (((201 : Nat) : Rat) * (3 / 4)) = 151 := by
    unfold rround
    rw [if_neg (by norm_num), floorEval 151 _ (by norm_num) (by norm_num)]
  constructor
  · rw [apply_text_unfold envRec fontsArial img0 settingsC3 tsAlpha201 md0 [] ⟨0⟩
      rfl rfl rfl rfl (by decide) (by decide)]
    have v : u8cast (((201 : Nat) : Rat) * (3 / 4)) = 150 := by
      rw [u8cast_eval _ 150 (by norm_num) (floorEval 150 _ (by norm_num) (by norm_num))]
      decide
    rw [show draw_text_passes envRec img0 settingsC3 tsAlpha201
        (replace_metadata_placeholders tsAlpha201.text md0 []) ⟨0⟩ =
        ⟨1, 1, [⟨9, 9, 9, 9⟩, ⟨255, 255, 255, u8cast (((201 : Nat) : Rat) * (3 / 4))⟩]⟩
      from rfl, v]
  · rw [vr]
    decide

/-- C8 (amended): for metadata whose exif mapping carries
`ExposureTime = t` (a nonzero number, modelled exactly as a rational; at
`t = 0` the `f64` division yields an infinity outside this model),
`{shutter_speed}` resolves to one fractional digit when `t ≥ 1.0` and to
`1/N` when `t < 1.0`, where `N = round(1/t)` saturated through the `as i32`
cast — for `round(1/t)` beyond the `i32` range, `N` is `2147483647`, not
`round(1/t)` itself (see the counterexample). -/
theorem C8_shutter_formatting (t : Rat) (exif adjRest : List (List Char × Json))
    (fname : List Char) (j : Json) (ht : t ≠ 0)
    (hj : lookupA exif "ExposureTime".data = some j)
    (hf : as_f64 j = some t) :
    replace_metadata_placeholders "{shutter_speed}".data
      ⟨("exif".data, Json.obj exif) :: adjRest⟩ fname =
      (if 1 ≤ t then fmt1 t else '1' :: '/' :: intChars (castI32 (rround (1 / t)))) :=
  resolve_shutter_eq t exif adjRest fname j hj hf

theorem C8_witness :
    ((1 : Rat) / 250 ≠ 0 ∧
      lookupA exifShutter "ExposureTime".data = some (Json.float (1 / 250)) ∧
      as_f64 (Json.float (1 / 250)) = some ((1 : Rat) / 250)) ∧
    replace_metadata_placeholders "{shutter_speed}".data
      ⟨[("exif".data, Json.obj exifShutter)]⟩ "f.jpg".data = "1/250".data := by
  refine ⟨⟨by norm_num, by simp [exifShutter, lookupA], rfl⟩, ?_⟩
  rw [C8_shutter_formatting ((1 : Rat) / 250) exifShutter [] "f.jpg".data
    (Json.float (1 / 250)) (by norm_num) (by simp [exifShutter, lookupA]) rfl]
  rw [if_neg (by norm_num), show (1 : Rat) / (1 / 250) = 250 from by norm_num]
  have hr : rround (250 : Rat) = 250 := by
    unfold rround
    rw [if_neg (by norm_num), floorEval 250 _ (by norm_num) (by norm_num)]
  rw [hr]
  decide

/-- C8 is false as stated for exposure times below the reciprocal of the
`i32` range: at `t = 10⁻¹⁰` the code prints `1/2147483647` (the saturated
cast), while `round(1/t) = 10000000000`. -/
theorem C8_counterexample :
    replace_metadata_placeholders "{shutter_speed}".data
      ⟨[("exif".data, Json.obj exifShutterTiny)]⟩ "f.jpg".data = "1/2147483647".data ∧
    rround ((1 : Rat) / (1 / 10000000000)) = 10000000000 ∧
    ("1/2147483647".data : List Char) ≠ '1' :: '/' :: intChars 10000000000 := by
  have hv : (1 : Rat) / (1 / 10000000000) = 10000000000 := by norm_num
  have hr : rround ((1 : Rat) / (1 / 10000000000)) = 10000000000 := by
    rw [hv]
    unfold rround
    rw [if_neg (by norm_num), floorEval 10000000000 _ (by norm_num) (by norm_num)]
  refine ⟨?_, hr, by decide⟩
  rw [resolve_shutter_eq ((1 : Rat) / 10000000000) exifShutterTiny [] "f.jpg".data
    (Json.float (1 / 10000000000)) (by simp [exifShutterTiny, lookupA]) rfl]
  unfold shutterChars
  rw [if_neg (by norm_num), hr]
  decide

/-- Resolution depends on the metadata only through the nine exif source
values read by the resolver. -/
theorem resolve_congr_v (template fname : List Char) (mdA mdB : ImageMetadata)
    (h1 : vMake mdA = vMake mdB) (h2 : vModel mdA = vModel mdB)
    (h3 : vLens mdA = vLens mdB) (h4 : vAperture mdA = vAperture mdB)
    (h5 : vShutter mdA = vShutter mdB) (h6 : vIso mdA = vIso mdB)
    (h7 : vFocal mdA = vFocal mdB) (h8 : vDateTime mdA = vDateTime mdB)
    (h9 : vArtist mdA = vArtist mdB) :
    replace_metadata_placeholders template mdA fname =
      replace_metadata_placeholders template mdB fname := by
  rw [resolve_eq_runSteps, resolve_eq_runSteps]
  congr 1
  simp only [stepList, h1, h2, h3, h4, h5, h6, h7, h8, h9]

/-- C10: a recognized placeholder whose exif entry is present but has the
wrong JSON type behaves exactly like an absent entry — erasing the
wrong-typed binding does not change the result of `resolve` for any
template; the resolver is a total function, so it never fails. -/
theorem C10_wrong_type_is_absent (template fname : List Char)
    (exif adjRest : List (List Char × Json)) :
    (∀ j, lookupA exif "Make".data = some j → as_str j = none →
      replace_metadata_placeholders template ⟨("exif".data, Json.obj exif) :: adjRest⟩ fname =
        replace_metadata_placeholders template
          ⟨("exif".data, Json.obj (eraseA exif "Make".data)) :: adjRest⟩ fname) ∧
    (∀ j, lookupA exif "FNumber".data = some j → as_f64 j = none →
      replace_metadata_placeholders template ⟨("exif".data, Json.obj exif) :: adjRest⟩ fname =
        replace_metadata_placeholders template
          ⟨("exif".data, Json.obj (eraseA exif "FNumber".data)) :: adjRest⟩ fname) := by
  have hA : lookupA (("exif".data, Json.obj exif) :: adjRest) "exif".data
      = some (Json.obj exif) := by simp [lookupA]
  constructor
  · intro j hj hstr
    have hB : lookupA (("exif".data, Json.obj (eraseA exif "Make".data)) :: adjRest) "exif".data
        = some (Json.obj (eraseA exif "Make".data)) := by simp [lookupA]
    have hE : ∀ k : List Char, k ≠ "Make".data →
        lookupA (eraseA exif "Make".data) k = lookupA exif k :=
      fun k hk => lookupA_eraseA_ne exif _ k hk
    refine resolve_congr_v template fname _ _ ?_ ?_ ?_ ?_ ?_ ?_ ?_ ?_ ?_
    · unfold vMake
      rw [hA, hB]
      simp only [Option.some_bind, jget]
      rw [hj, lookupA_eraseA_self]
      simp [hstr]
    · unfold vModel
      rw [hA, hB]
      simp only [Option.some_bind, jget]
      rw [hE "Model".data (by decide)]
    · unfold vLens
      rw [hA, hB]
      simp only [Option.some_bind, jget]
      rw [hE "LensModel".data (by decide)]
    · unfold vAperture
      rw [hA, hB]
      simp only [Option.some_bind, jget]
      rw [hE "FNumber".data (by decide)]
    · unfold vShutter
      rw [hA, hB]
      simp only [Option.some_bind, jget]
      rw [hE "ExposureTime".data (by decide)]
    · unfold vIso
      rw [hA, hB]
      simp only [Option.some_bind, jget]
      rw [hE "PhotographicSensitivity".data (by decide)]
    · unfold vFocal
      rw [hA, hB]
      simp only [Option.some_bind, jget]
      rw [hE "FocalLength".data (by decide)]
    · unfold vDateTime
      rw [hA, hB]
      simp only [Option.some_bind, jget]
      rw [hE "DateTime".data (by decide)]
    · unfold vArtist
      rw [hA, hB]
      simp only [Option.some_bind, jget]
      rw [hE "Artist".data (by decide)]
  · intro j hj hnum
    have hB : lookupA (("exif".data, Json.obj (eraseA exif "FNumber".data)) :: adjRest)
        "exif".data = some (Json.obj (eraseA exif "FNumber".data)) := by simp [lookupA]
    have hE : ∀ k : List Char, k ≠ "FNumber".data →
        lookupA (eraseA exif "FNumber".data) k = lookupA exif k :=
      fun k hk => lookupA_eraseA_ne exif _ k hk
    refine resolve_congr_v template fname _ _ ?_ ?_ ?_ ?_ ?_ ?_ ?_ ?_ ?_
    · unfold vMake
      rw [hA, hB]
      simp only [Option.some_bind, jget]
      rw [hE "Make".data (by decide)]
    · unfold vModel
      rw [hA, hB]
      simp only [Option.some_bind, jget]
      rw [hE "Model".data (by decide)]
    · unfold vLens
      rw [hA, hB]
      simp only [Option.some_bind, jget]
      rw [hE "LensModel".data (by decide)]
    · unfold vAperture
      rw [hA, hB]
      simp only [Option.some_bind, jget]
      rw [hj, lookupA_eraseA_self]
      simp [hnum]
    · unfold vShutter
      rw [hA, hB]
      simp only [Option.some_bind, jget]
      rw [hE "ExposureTime".data (by decide)]
    · unfold vIso
      rw [hA, hB]
      simp only [Option.some_bind, jget]
      rw [hE "PhotographicSensitivity".data (by decide)]
    · unfold vFocal
      rw [hA, hB]
      simp only [Option.some_bind, jget]
      rw [hE "FocalLength".data (by decide)]
    · unfold vDateTime
      rw [hA, hB]
      simp only [Option.some_bind, jget]
      rw [hE "DateTime".data (by decide)]
    · unfold vArtist
      rw [hA, hB]
      simp only [Option.some_bind, jget]
      rw [hE "Artist".data (by decide)]

theorem C10_witness :
    (lookupA exifBadMake "Make".data = some (Json.int 5) ∧ as_str (Json.int 5) = none) ∧
    replace_metadata_placeholders "{camera_make}".data
      ⟨[("exif".data, Json.obj exifBadMake)]⟩ "f.jpg".data =
      replace_metadata_placeholders "{camera_make}".data
        ⟨[("exif".data, Json.obj (eraseA exifBadMake "Make".data))]⟩ "f.jpg".data :=
  ⟨⟨by simp [exifBadMake, lookupA], rfl⟩,
   (C10_wrong_type_is_absent "{camera_make}".data "f.jpg".data exifBadMake []).1
     (Json.int 5) (by simp [exifBadMake, lookupA]) rfl⟩

/-- C1 (amended): substitution is sequential in a fixed order, and a
recognized token occurring inside a source value is itself substituted or
removed by later passes rather than kept verbatim (see the counterexample).
Order-independence holds in the brace-free fragment: for a template that is
a concatenation of literal chunks and recognized tokens where neither the
literal chunks nor the substituted source values contain an opening brace,
the resolver equals the simultaneous, per-segment (hence order-free)
substitution mapping each token to its formatted value (empty when the
source is absent). -/
theorem C1_order_independence_bracefree (md : ImageMetadata) (fname : List Char)
    (segs : List Seg)
    (hsegs : ∀ s ∈ segs, segOpenFree s)
    (hvals : ∀ p : PTok, openFree (tokenValue p md fname)) :
    replace_metadata_placeholders (renderT segs) md fname =
      renderT (segs.map (parSeg md fname)) :=
  resolve_renderT_eq_parallel md fname segs hsegs hvals

theorem C1_witness :
    (∀ s ∈ segsW, segOpenFree s) ∧
    (∀ p : PTok, openFree (tokenValue p mdSony "f.jpg".data)) ∧
    replace_metadata_placeholders (renderT segsW) mdSony "f.jpg".data =
      renderT (segsW.map (parSeg mdSony "f.jpg".data)) :=
  ⟨by decide, by decide,
   C1_order_independence_bracefree mdSony "f.jpg".data segsW (by decide) (by decide)⟩

/-- C1 is false as stated: with `Make = "{iso}"` and no ISO entry, the
template `{camera_make}` resolves to the empty string — the `{iso}` that the
Make value introduced was removed by the later leftover-removal pass instead
of appearing verbatim in the output. -/
theorem C1_counterexample :
    replace_metadata_placeholders "{camera_make}".data mdInjected "x".data = [] ∧
    ¬ "{iso}".data <:+: ([] : List Char) := by
  constructor
  · decide
  · rintro ⟨s, t, h⟩
    have := congrArg List.length h
    simp at this

end RapidRAW
